import Mathlib

/-!
WildFireMNE — verification of the event / live-track store.

Shallow embedding of `app/bot/storage.py` (SQLite backend, the branch taken
when no `DATABASE_URL` is set) and of the signature guard in `app/bot/main.py`.

Modelling conventions:
* a table is a `List` of row structures; SQL `NULL`-able columns are `Option`;
* the `events` schema declares `lat REAL NOT NULL, lon REAL NOT NULL`, so a
  stored event row carries plain rationals, and `save_event` (which receives
  `Optional` coordinates from callers) returns `Except`, erroring exactly when
  SQLite would raise a NOT NULL constraint violation;
* coordinates are modelled as rationals (the claims under study only store and
  retrieve them, no float arithmetic is involved);
* `ORDER BY ts DESC` is modelled by a stable merge sort with the descending-
  timestamp comparator — the SQL contract is just the ordering property;
* `cur.rowcount` of a `DELETE` is the number of rows matched by the predicate;
* SQL equality `user_id = ?` with an integer binding never matches a stored
  `NULL`, which `Option.some u` equality reproduces.
-/

/-- A row of the `events` table (`_ensure_schema`, sqlite branch):
`id, type, lat REAL NOT NULL, lon REAL NOT NULL, user_id, contact, text,
photo_file_id, ts`. -/
structure EventRow where
  id : Nat
  etype : String
  lat : ℚ
  lon : ℚ
  user_id : Option ℤ
  contact : Option String
  text : Option String
  photo_file_id : Option String
  ts : ℤ
deriving DecidableEq, Repr

/-- A row of the `live_tracks` table: `user_id INTEGER PRIMARY KEY, contact,
lat REAL NOT NULL, lon REAL NOT NULL, live_until, updated_ts`. -/
structure LiveRow where
  user_id : ℤ
  contact : Option String
  lat : ℚ
  lon : ℚ
  live_until : ℤ
  updated_ts : ℤ
deriving DecidableEq, Repr

/-- The storage state: the two tables plus the next `AUTOINCREMENT` id the
events table will hand out. -/
structure DB where
  events : List EventRow
  nextId : Nat
  live : List LiveRow
deriving DecidableEq, Repr

def emptyDB : DB := ⟨[], 1, []⟩

/-- Embedding of `Storage.save_event`: `INSERT INTO events(type,lat,lon,user_id,contact,
text,photo_file_id,ts) VALUES (...)`, returning `lastrowid`.  `ts=None`
defaults to the current time (`now` argument).  The schema's NOT NULL
constraints on `lat`/`lon` make the insert raise when either is `None`. -/
def save_event (db : DB) (etype : String) (lat lon : Option ℚ)
    (user_id : Option ℤ) (contact text photo_file_id : Option String)
    (ts : Option ℤ) (now : ℤ) : Except String (Nat × DB) :=
  match lat, lon with
  | some la, some lo =>
      let t := ts.getD now
      let i := db.nextId
      Except.ok (i,
        { db with
          events := db.events ++ [⟨i, etype, la, lo, user_id, contact, text, photo_file_id, t⟩]
          nextId := i + 1 })
  | _, _ => Except.error "NOT NULL constraint failed: events.lat / events.lon"

/-- Embedding of `Storage.remove_event`: returns `False` outright when `user_id is None`;
otherwise `DELETE FROM events WHERE id=? AND user_id=?` and reports
`rowcount > 0`. -/
def remove_event (db : DB) (event_id : Nat) (user_id : Option ℤ) : Bool × DB :=
  match user_id with
  | none => (false, db)
  | some u =>
      let hit := fun r : EventRow => r.id == event_id && r.user_id == some u
      (decide (0 < (db.events.filter hit).length),
       { db with events := db.events.filter (fun r => !hit r) })

/-- Embedding of `Storage.list_events`: `SELECT id,type,lat,lon,user_id,contact,text,
photo_file_id,ts FROM events ORDER BY ts DESC`. -/
def list_events (db : DB) : List EventRow :=
  db.events.mergeSort (fun a b => b.ts ≤ a.ts)

/-- The row-level effect of `INSERT ... ON CONFLICT(user_id) DO UPDATE SET
contact=excluded.contact, lat=excluded.lat, lon=excluded.lon,
live_until=excluded.live_until, updated_ts=excluded.updated_ts`. -/
def upsertRows (rows : List LiveRow) (k : ℤ) (row : LiveRow) : List LiveRow :=
  if rows.any (fun r => r.user_id == k) then
    rows.map (fun r => if r.user_id == k then row else r)
  else
    rows ++ [row]

/-- Embedding of `Storage.upsert_live_start`: upsert of the full live row for `user_id`,
with `updated_ts` set to the current time `now`. -/
def upsert_live_start (db : DB) (user_id : ℤ) (contact : Option String)
    (lat lon : ℚ) (live_until : ℤ) (now : ℤ) : DB :=
  { db with live := upsertRows db.live user_id ⟨user_id, contact, lat, lon, live_until, now⟩ }

/-- Embedding of `Storage.update_live_position`: `UPDATE live_tracks SET lat=?, lon=?,
updated_ts=? WHERE user_id=?` — in-place coordinate update, a no-op on a
missing key. -/
def update_live_position (db : DB) (user_id : ℤ) (lat lon : ℚ) (now : ℤ) : DB :=
  { db with
    live := db.live.map (fun r =>
      if r.user_id == user_id then { r with lat := lat, lon := lon, updated_ts := now } else r) }

/-- Embedding of `Storage.remove_live`: `DELETE FROM live_tracks WHERE user_id=?`,
reporting `rowcount > 0`. -/
def remove_live (db : DB) (user_id : ℤ) : Bool × DB :=
  (decide (0 < (db.live.filter (fun r => r.user_id == user_id)).length),
   { db with live := db.live.filter (fun r => !(r.user_id == user_id)) })

/-- Embedding of `Storage.purge_expired_live`: `DELETE FROM live_tracks WHERE
live_until < ?`, returning `rowcount` (the number of rows removed). -/
def purge_expired_live (db : DB) (now_ts : ℤ) : Nat × DB :=
  ((db.live.filter (fun r => r.live_until < now_ts)).length,
   { db with live := db.live.filter (fun r => !(r.live_until < now_ts)) })

/-- Embedding of `Storage.list_live(active_only=True)`: rows with `live_until >= now`
(no ordering clause). -/
def list_live (db : DB) (now : ℤ) : List LiveRow :=
  db.live.filter (fun r => now ≤ r.live_until)

/-- One GeoJSON `Feature` as built by `_feat_event` / `_feat_live`: a Point
geometry plus the properties both builders emit.  Coordinate slots are
`Option` to express JSON nullability — the claims ask whether a `null`
coordinate can ever appear. -/
structure Feature where
  lon : Option ℚ
  lat : Option ℚ
  fid : ℤ
  ftype : String
  user_id : Option ℤ
  contact : Option String
  text : Option String
  photo_file_id : Option String
  ts : Option ℤ
  live_until : Option ℤ
deriving DecidableEq, Repr

/-- Embedding of `Storage._feat_event`: coordinates `[lon, lat]` taken directly from the
row (always present: the schema stores them NOT NULL). -/
def feat_event (r : EventRow) : Feature :=
  ⟨some r.lon, some r.lat, (r.id : ℤ), r.etype, r.user_id, r.contact, r.text,
   r.photo_file_id, some r.ts, none⟩

/-- Embedding of `Storage._feat_live`: negated user id as the stable feature id, type
`"volunteer_live"`, coordinates from the row. -/
def feat_live (r : LiveRow) : Feature :=
  ⟨some r.lon, some r.lat, -r.user_id, "volunteer_live", some r.user_id,
   r.contact, none, none, some r.updated_ts, some r.live_until⟩

/-- A GeoJSON `FeatureCollection`. -/
structure FeatureCollection where
  features : List Feature
deriving DecidableEq, Repr

/-- Embedding of `Storage.geojson`: event features (from `list_events`) followed by the
active live-track features (from `list_live(active_only=True)`). -/
def geojson (db : DB) (now : ℤ) : FeatureCollection :=
  ⟨(list_events db).map feat_event ++ (list_live db now).map feat_live⟩

/-! Photo attachment (`add_photo_to_event`).

`app/bot/main.py` imports `add_photo_to_event` from `.storage` and calls it
from the photo handler, but the storage module present in the repository does
not define it; the operation is modelled from the spec. -/

/-- A row of the photos child collection: `{event_id, external_file_reference}`. -/
structure PhotoRow where
  event_id : Nat
  file_ref : String
deriving DecidableEq, Repr

/-- Modelled from the spec: `attach_photo(event_id, file_ref)` "appends a
Photo row associated to `event_id`"; the implementation is missing from the
storage module (only its import and call sites in `main.py` exist). -/
def add_photo_to_event (photos : List PhotoRow) (event_id : Nat)
    (file_ref : String) : List PhotoRow :=
  photos ++ [⟨event_id, file_ref⟩]

/-- Modelled from the spec: the list of photo references an event carries. -/
def photos_of (photos : List PhotoRow) (e : Nat) : List String :=
  (photos.filter (fun p => p.event_id == e)).map (fun p => p.file_ref)

/-- Modelled from the spec: the "most recent" photo reference, exposed for
compact display. -/
def latest_photo (photos : List PhotoRow) (e : Nat) : Option String :=
  (photos_of photos e).getLast?

/-- Iterated photo attachment: `n` successive `add_photo_to_event` calls for the same event. -/
def attach_all (photos : List PhotoRow) (e : Nat) (refs : List String) : List PhotoRow :=
  refs.foldl (fun ps r => add_photo_to_event ps e r) photos

/-! Ownership/signature guard (`sign_uid` / `check_sig` in `main.py`).

`sign_uid(uid) = hmac.new(SECRET_KEY, str(uid).encode(), sha256).hexdigest()`
and `check_sig(uid, sig) = hmac.compare_digest(sign_uid(uid), sig or "")`.
SHA-256 and HMAC are embedded in full (bytes as `Nat`, words as `Nat` reduced
mod `2^32`). -/

def w32 : Nat := 4294967296

def rotr32 (n x : Nat) : Nat := ((x >>> n) ||| (x <<< (32 - n))) % w32

def not32 (x : Nat) : Nat := x ^^^ (w32 - 1)

def sha_s0 (x : Nat) : Nat := rotr32 7 x ^^^ rotr32 18 x ^^^ (x >>> 3)
def sha_s1 (x : Nat) : Nat := rotr32 17 x ^^^ rotr32 19 x ^^^ (x >>> 10)
def sha_b0 (x : Nat) : Nat := rotr32 2 x ^^^ rotr32 13 x ^^^ rotr32 22 x
def sha_b1 (x : Nat) : Nat := rotr32 6 x ^^^ rotr32 11 x ^^^ rotr32 25 x
def shaCh (x y z : Nat) : Nat := (x &&& y) ^^^ (not32 x &&& z)
def shaMaj (x y z : Nat) : Nat := (x &&& y) ^^^ (x &&& z) ^^^ (y &&& z)

/-- The SHA-256 round constants. -/
def sha256K : List Nat :=
  [1116352408, 1899447441, 3049323471, 3921009573,
   961987163, 1508970993, 2453635748, 2870763221,
   3624381080, 310598401, 607225278, 1426881987,
   1925078388, 2162078206, 2614888103, 3248222580,
   3835390401, 4022224774, 264347078, 604807628,
   770255983, 1249150122, 1555081692, 1996064986,
   2554220882, 2821834349, 2952996808, 3210313671,
   3336571891, 3584528711, 113926993, 338241895,
   666307205, 773529912, 1294757372, 1396182291,
   1695183700, 1986661051, 2177026350, 2456956037,
   2730485921, 2820302411, 3259730800, 3345764771,
   3516065817, 3600352804, 4094571909, 275423344,
   430227734, 506948616, 659060556, 883997877,
   958139571, 1322822218, 1537002063, 1747873779,
   1955562222, 2024104815, 2227730452, 2361852424,
   2428436474, 2756734187, 3204031479, 3329325298]

/-- The eight 32-bit state words of SHA-256. -/
structure Hash8 where
  a : Nat
  b : Nat
  c : Nat
  d : Nat
  e : Nat
  f : Nat
  g : Nat
  h : Nat
deriving DecidableEq, Repr

def sha256H0 : Hash8 :=
  ⟨1779033703, 3144134277, 1013904242, 2773480762, 1359893119, 2600822924, 528734635, 1541459225⟩

/-- Big-endian 8-byte encoding of a (64-bit) length value. -/
def be64 (n : Nat) : List Nat :=
  [(n >>> 56) % 256, (n >>> 48) % 256, (n >>> 40) % 256, (n >>> 32) % 256,
   (n >>> 24) % 256, (n >>> 16) % 256, (n >>> 8) % 256, n % 256]

/-- SHA-256 padding: `0x80`, zeros to 56 mod 64, then the bit length. -/
def sha256pad (msg : List Nat) : List Nat :=
  msg ++ [0x80] ++ List.replicate ((119 - msg.length % 64) % 64) 0 ++ be64 (8 * msg.length)

/-- Split a (padded) byte string into 64-byte blocks. -/
def blocks64 (l : List Nat) : List (List Nat) :=
  (List.range (l.length / 64)).map (fun i => ((l.drop (64 * i)).take 64))

/-- The 16 initial big-endian 32-bit words of a 64-byte block. -/
def blockWords (b : List Nat) : List Nat :=
  (List.range 16).map (fun i =>
    (b.getD (4 * i) 0 <<< 24) ||| (b.getD (4 * i + 1) 0 <<< 16) |||
    (b.getD (4 * i + 2) 0 <<< 8) ||| b.getD (4 * i + 3) 0)

/-- Extend the 16 message words to the 64-entry schedule. -/
def schedule (ws : List Nat) : Array Nat :=
  (List.range 48).foldl
    (fun w i =>
      let t := i + 16
      w.push ((sha_s1 (w.getD (t - 2) 0) + w.getD (t - 7) 0 +
               sha_s0 (w.getD (t - 15) 0) + w.getD (t - 16) 0) % w32))
    ws.toArray

/-- One SHA-256 compression round. -/
def shaRound (s : Hash8) (kw : Nat × Nat) : Hash8 :=
  let t1 := (s.h + sha_b1 s.e + shaCh s.e s.f s.g + kw.1 + kw.2) % w32
  let t2 := (sha_b0 s.a + shaMaj s.a s.b s.c) % w32
  ⟨(t1 + t2) % w32, s.a, s.b, s.c, (s.d + t1) % w32, s.e, s.f, s.g⟩

/-- Compress one 64-byte block into the running hash state. -/
def compressBlock (s : Hash8) (b : List Nat) : Hash8 :=
  let w := schedule (blockWords b)
  let t := (sha256K.zip w.toList).foldl shaRound s
  ⟨(s.a + t.a) % w32, (s.b + t.b) % w32, (s.c + t.c) % w32, (s.d + t.d) % w32,
   (s.e + t.e) % w32, (s.f + t.f) % w32, (s.g + t.g) % w32, (s.h + t.h) % w32⟩

/-- Big-endian bytes of one 32-bit word. -/
def wordBytes (x : Nat) : List Nat :=
  [(x >>> 24) % 256, (x >>> 16) % 256, (x >>> 8) % 256, x % 256]

/-- The 32 digest bytes of a final hash state. -/
def hashBytes (s : Hash8) : List Nat :=
  wordBytes s.a ++ wordBytes s.b ++ wordBytes s.c ++ wordBytes s.d ++
  wordBytes s.e ++ wordBytes s.f ++ wordBytes s.g ++ wordBytes s.h

/-- SHA-256 of a byte string. -/
def sha256 (msg : List Nat) : List Nat :=
  hashBytes ((blocks64 (sha256pad msg)).foldl compressBlock sha256H0)

/-- HMAC-SHA256 (`hmac.new(key, msg, sha256)`), block size 64. -/
def hmac_sha256 (key msg : List Nat) : List Nat :=
  let k0 := if 64 < key.length then sha256 key else key
  let kp := k0 ++ List.replicate (64 - k0.length) 0
  sha256 ((kp.map (fun x => x ^^^ 0x5c)) ++ sha256 ((kp.map (fun x => x ^^^ 0x36)) ++ msg))

def hexChar (n : Nat) : Char := if n < 10 then Char.ofNat (48 + n) else Char.ofNat (87 + n)

/-- The hex digit characters of a byte string, two per byte. -/
def hexChars (bs : List Nat) : List Char :=
  bs.foldr (fun x acc => hexChar (x / 16) :: hexChar (x % 16) :: acc) []

/-- Embedding of `.hexdigest()`: lowercase hex encoding of a byte string. -/
def hexOfBytes (bs : List Nat) : String :=
  String.mk (hexChars bs)

def strBytes (s : String) : List Nat := s.toList.map Char.toNat

/-- The default `SECRET_KEY` (`os.getenv("SECRET_KEY", "dev-secret-change-me")`). -/
def default_secret : List Nat := strBytes "dev-secret-change-me"

/-- Embedding of `sign_uid(uid)`: hex HMAC-SHA256 of the decimal rendering of `uid` under
the server secret. -/
def sign_uid (secret : List Nat) (uid : Nat) : String :=
  hexOfBytes (hmac_sha256 secret ((Nat.toDigits 10 uid).map Char.toNat))

/-- Functional content of `hmac.compare_digest` on strings: equality (the
constant-time execution profile is a timing property outside the model). -/
def compare_digest (x y : String) : Bool := x == y

/-- Embedding of `check_sig(uid, sig)`: compare the token against a freshly computed
signature (`sig or ""` is the identity on the `str` arguments the endpoint
passes). -/
def check_sig (secret : List Nat) (uid : Nat) (sig : String) : Bool :=
  compare_digest (sign_uid secret uid) sig


/-! Concrete states used by the witness theorems. -/

def rowOwned : EventRow := ⟨1, "fire", 42, 18, some 7, none, none, none, 100⟩
def rowNullOwner : EventRow := ⟨2, "volunteer", 1, 2, none, none, none, none, 90⟩
def rowOther : EventRow := ⟨3, "fire", 3, 4, some 8, none, none, none, 80⟩

def dbW : DB := ⟨[rowOwned, rowNullOwner, rowOther], 4, []⟩

def bigRow (i : Nat) : EventRow := ⟨i, "volunteer", 0, 0, none, none, none, none, 0⟩

def bigDB : DB := ⟨(List.range 5001).map bigRow, 5002, []⟩

/-! Helper lemmas. -/

lemma photos_of_append (photos : List PhotoRow) (e : Nat) (x : String) :
    photos_of (add_photo_to_event photos e x) e = photos_of photos e ++ [x] := by
  simp [photos_of, add_photo_to_event]

lemma photos_of_attach_all (photos : List PhotoRow) (e : Nat) (refs : List String) :
    photos_of (attach_all photos e refs) e = photos_of photos e ++ refs := by
  induction refs generalizing photos with
  | nil => simp [attach_all]
  | cons r rs ih =>
      simp only [attach_all, List.foldl_cons]
      have h := ih (add_photo_to_event photos e r)
      simp only [attach_all] at h
      rw [h, photos_of_append]
      simp

lemma filter_replace (k : ℤ) (row : LiveRow) (hk : row.user_id = k) :
    ∀ rows : List LiveRow, (rows.map (fun r => r.user_id)).Nodup →
      rows.any (fun r => r.user_id == k) = true →
      (rows.map (fun r => if r.user_id == k then row else r)).filter
        (fun r => r.user_id == k) = [row] := by
  intro rows
  induction rows with
  | nil => intro _ h; cases h
  | cons a rs ih =>
      intro hnd hany
      rw [List.map_cons, List.nodup_cons] at hnd
      by_cases ha : a.user_id = k
      · have hb : (a.user_id == k) = true := by simp [ha]
        have hkr : (row.user_id == k) = true := by simp [hk]
        have htail : (rs.map (fun r => if r.user_id == k then row else r)).filter
            (fun r => r.user_id == k) = [] := by
          apply List.filter_eq_nil_iff.mpr
          intro x hx
          obtain ⟨r, hr, rfl⟩ := List.mem_map.mp hx
          have hrk : r.user_id ≠ k := by
            intro hh
            exact hnd.1 (ha ▸ hh ▸ List.mem_map_of_mem (fun r => r.user_id) hr)
          simp [hrk]
        rw [List.map_cons, if_pos hb,
          List.filter_cons_of_pos (p := fun r : LiveRow => r.user_id == k) hkr, htail]
      · have hbf : (a.user_id == k) = false := by simp [ha]
        have hany' : rs.any (fun r => r.user_id == k) = true := by
          simpa [List.any_cons, hbf] using hany
        have hnb : ¬((a.user_id == k) = true) := by simp [hbf]
        rw [List.map_cons, if_neg hnb,
          List.filter_cons_of_neg (p := fun r : LiveRow => r.user_id == k) hnb]
        exact ih hnd.2 hany'

lemma filter_upsertRows (rows : List LiveRow) (k : ℤ) (row : LiveRow)
    (hk : row.user_id = k) (hnd : (rows.map (fun r => r.user_id)).Nodup) :
    (upsertRows rows k row).filter (fun r => r.user_id == k) = [row] := by
  unfold upsertRows
  cases hany : rows.any (fun r => r.user_id == k) with
  | true =>
      simp only [hany, if_true]
      exact filter_replace k row hk rows hnd hany
  | false =>
      simp only [hany, Bool.false_eq_true, if_false]
      rw [List.filter_append]
      have h1 : rows.filter (fun r => r.user_id == k) = [] := by
        apply List.filter_eq_nil_iff.mpr
        intro a ha
        exact List.any_eq_false.mp hany a ha
      simp [h1, hk]

lemma upsertRows_nodup (rows : List LiveRow) (k : ℤ) (row : LiveRow)
    (hk : row.user_id = k) (hnd : (rows.map (fun r => r.user_id)).Nodup) :
    ((upsertRows rows k row).map (fun r => r.user_id)).Nodup := by
  unfold upsertRows
  cases hany : rows.any (fun r => r.user_id == k) with
  | true =>
      simp only [hany, if_true]
      have h : (rows.map (fun r => if r.user_id == k then row else r)).map
          (fun r => r.user_id) = rows.map (fun r => r.user_id) := by
        rw [List.map_map]
        apply List.map_congr_left
        intro a _
        by_cases ha : a.user_id = k
        · simp [ha, hk]
        · simp [ha]
      rw [h]; exact hnd
  | false =>
      simp only [hany, Bool.false_eq_true, if_false]
      rw [List.map_append, List.map_cons, List.map_nil]
      have hk' : k ∉ rows.map (fun r => r.user_id) := by
        intro hmem
        obtain ⟨r, hr, hrk⟩ := List.mem_map.mp hmem
        exact List.any_eq_false.mp hany r hr (by simp [hrk])
      rw [List.Perm.nodup_iff (List.perm_append_singleton _ _), List.nodup_cons]
      exact ⟨by rw [hk]; exact hk', hnd⟩

lemma filter_update_key (rows : List LiveRow) (k : ℤ) (la lo : ℚ) (n : ℤ) (row : LiveRow)
    (hfil : rows.filter (fun r => r.user_id == k) = [row]) :
    (rows.map (fun r =>
        if r.user_id == k then { r with lat := la, lon := lo, updated_ts := n } else r)).filter
      (fun r => r.user_id == k)
      = [{ row with lat := la, lon := lo, updated_ts := n }] := by
  rw [List.filter_map]
  have hpf : ∀ x ∈ rows,
      ((fun r : LiveRow => r.user_id == k) ∘
        (fun r => if r.user_id == k then { r with lat := la, lon := lo, updated_ts := n } else r)) x
      = (x.user_id == k) := by
    intro x _
    by_cases hx : x.user_id = k <;> simp [hx]
  rw [List.filter_congr hpf, hfil]
  have hrowk : (row.user_id == k) = true := by
    have hmem : row ∈ rows.filter (fun r => r.user_id == k) := by
      rw [hfil]; exact List.mem_singleton_self _
    exact (List.mem_filter.mp hmem).2
  rw [List.map_cons, List.map_nil, if_pos hrowk]

lemma sha256_length (m : List Nat) : (sha256 m).length = 32 := by
  simp [sha256, hashBytes, wordBytes]

lemma hmac_sha256_length (key msg : List Nat) : (hmac_sha256 key msg).length = 32 := by
  simp [hmac_sha256, sha256_length]

lemma hexChars_length (bs : List Nat) : (hexChars bs).length = 2 * bs.length := by
  induction bs with
  | nil => rfl
  | cons b tl ih =>
      simp only [hexChars, List.foldr_cons, List.length_cons] at *
      omega

lemma sign_uid_length (secret : List Nat) (uid : Nat) : (sign_uid secret uid).length = 64 := by
  have h : (hexOfBytes (hmac_sha256 secret ((Nat.toDigits 10 uid).map Char.toNat))).length
      = (hexChars (hmac_sha256 secret ((Nat.toDigits 10 uid).map Char.toNat))).length := rfl
  rw [sign_uid, h, hexChars_length, hmac_sha256_length]

/-! Claim theorems. -/

/-- C1: for every stored set of events, event id `e` and owner `u`,
`remove_event(e, u)` returns `true` iff an event with id `e` and
`owner_id = u` exists; on a mismatched owner or missing id it returns `false`
(no exception is possible), the surviving table is a sublist of the original
(nothing is mutated), and no event whose owner differs from `u` is removed. -/
theorem remove_event_owner_capability (db : DB) (e : Nat) (u : ℤ) :
    ((remove_event db e (some u)).1 = true ↔ ∃ r ∈ db.events, r.id = e ∧ r.user_id = some u)
    ∧ (remove_event db e (some u)).2.events.Sublist db.events
    ∧ (∀ r ∈ db.events, r.user_id ≠ some u → r ∈ (remove_event db e (some u)).2.events) := by
  refine ⟨?_, ?_, ?_⟩
  · constructor
    · intro h
      simp only [remove_event, decide_eq_true_eq, List.length_pos_iff_exists_mem] at h
      obtain ⟨r, hr⟩ := h
      rw [List.mem_filter] at hr
      obtain ⟨h1, h2⟩ := hr
      simp only [Bool.and_eq_true, beq_iff_eq] at h2
      exact ⟨r, h1, h2.1, h2.2⟩
    · rintro ⟨r, hmem, hid, hu⟩
      simp only [remove_event, decide_eq_true_eq, List.length_pos_iff_exists_mem]
      exact ⟨r, List.mem_filter.mpr ⟨hmem, by simp [hid, hu]⟩⟩
  · simp only [remove_event]
    exact List.filter_sublist db.events
  · intro r hr hu
    simp only [remove_event]
    rw [List.mem_filter]
    exact ⟨hr, by simp [hu]⟩

/-- C1 witness: on a concrete three-row table, deleting event 1 as its owner 7
succeeds, and the event of owner 8 survives. -/
theorem remove_event_owner_capability_witness :
    (remove_event dbW 1 (some 7)).1 = true ∧ rowOther ∈ (remove_event dbW 1 (some 7)).2.events :=
  ⟨(remove_event_owner_capability dbW 1 7).1.mpr ⟨rowOwned, by decide, by decide, by decide⟩,
   (remove_event_owner_capability dbW 1 7).2.2 rowOther (by decide) (by decide)⟩

/-- C10: `remove_event(e, None)` returns `false` and leaves the table
unchanged (the explicit `None` guard fires before any SQL), and an event
stored with `NULL` owner can never be removed by any `remove_event` call,
because SQL `user_id = u` never matches `NULL`. -/
theorem remove_event_null_owner_guard (db : DB) (e : Nat) :
    remove_event db e none = (false, db)
    ∧ (∀ uo : Option ℤ, ∀ r ∈ db.events, r.user_id = none → r ∈ (remove_event db e uo).2.events) := by
  refine ⟨rfl, ?_⟩
  intro uo r hr hnull
  cases uo with
  | none => simp only [remove_event]; exact hr
  | some u =>
    simp only [remove_event]
    rw [List.mem_filter]
    exact ⟨hr, by simp [hnull]⟩

/-- C10 witness: on the concrete table, `remove_event(2, None)` returns
`false` leaving the state intact, and the `NULL`-owner row survives a delete
attempt by owner 7. -/
theorem remove_event_null_owner_guard_witness :
    remove_event dbW 2 none = (false, dbW)
    ∧ rowNullOwner ∈ (remove_event dbW 2 (some 7)).2.events :=
  ⟨(remove_event_null_owner_guard dbW 2).1,
   (remove_event_null_owner_guard dbW 2).2 (some 7) rowNullOwner (by decide) (by decide)⟩

/-- C2 counterexample: a `save_event` call with null coordinates does not
succeed — the schema's NOT NULL constraint on `lat`/`lon` rejects the insert,
so no event id is returned. -/
theorem save_event_null_coords_cex :
    (save_event emptyDB "fire" none none (some 1) none none none (some 0) 0).isOk = false := rfl

/-- C2 amended: with non-null coordinates `save_event` inserts exactly one new
row carrying the arguments and returns the fresh id; with a null `lat` or a
null `lon` the insert raises a NOT NULL constraint error instead of
succeeding. -/
theorem save_event_insert_semantics (db : DB) (etype : String) (la lo : ℚ)
    (uid : Option ℤ) (c tx ph : Option String) (ts : Option ℤ) (now : ℤ) :
    (∃ db', save_event db etype (some la) (some lo) uid c tx ph ts now = Except.ok (db.nextId, db')
        ∧ db'.events = db.events ++ [⟨db.nextId, etype, la, lo, uid, c, tx, ph, ts.getD now⟩]
        ∧ db'.nextId = db.nextId + 1 ∧ db'.live = db.live)
    ∧ (∀ lon', (save_event db etype none lon' uid c tx ph ts now).isOk = false)
    ∧ (∀ lat', (save_event db etype lat' none uid c tx ph ts now).isOk = false) := by
  refine ⟨⟨_, rfl, rfl, rfl, rfl⟩, ?_, ?_⟩
  · intro lon'; cases lon' <;> rfl
  · intro lat'; cases lat' <;> rfl

/-- C7 counterexample: for an input tuple with a null coordinate, `record`
raises instead of inserting, so no immediately following `list_active` call
can contain the "recorded" event — the round-trip fails for such tuples. -/
theorem save_event_roundtrip_cex :
    ¬ ∃ i db', save_event emptyDB "volunteer" none (some 1) (some 7) none none none (some 5) 5
        = Except.ok (i, db') := by
  rintro ⟨i, db', h⟩
  simp [save_event] at h

/-- C7 amended: for every input tuple with non-null coordinates,
`save_event` followed immediately by `list_events` yields a list containing
the newly recorded event with every supplied field (type, lat, lon, owner,
contact, text, photo reference, timestamp) intact. -/
theorem save_event_roundtrip (db : DB) (etype : String) (la lo : ℚ) (uid : Option ℤ)
    (c tx ph : Option String) (t now : ℤ) :
    ∃ db', save_event db etype (some la) (some lo) uid c tx ph (some t) now
        = Except.ok (db.nextId, db')
      ∧ (⟨db.nextId, etype, la, lo, uid, c, tx, ph, t⟩ : EventRow) ∈ list_events db' := by
  refine ⟨_, rfl, ?_⟩
  simp [list_events, save_event]

/-- C8 (spec-modelled): `attach_photo` only appends — after attaching the
references `refs` one by one, the event's photo list is its previous list
extended by `refs` in order (so `n` calls add exactly `n` references and no
previously attached photo is overwritten or lost), and the exposed "most
recent" photo is the last of that list. -/
theorem attach_photo_accumulates (photos : List PhotoRow) (e : Nat) (refs : List String) :
    photos_of (attach_all photos e refs) e = photos_of photos e ++ refs
    ∧ (photos_of (attach_all photos e refs) e).length
        = (photos_of photos e).length + refs.length
    ∧ latest_photo (attach_all photos e refs) e = (photos_of photos e ++ refs).getLast? := by
  refine ⟨photos_of_attach_all _ _ _, ?_, ?_⟩
  · rw [photos_of_attach_all]; simp
  · rw [latest_photo, photos_of_attach_all]

/-- C5: every feature in the FeatureCollection returned by `geojson` carries
resolved coordinates — no null or missing `lat`/`lon` ever appears, for any
store state (the schema's NOT NULL columns mean no row lacks coordinates, so
the projection is total). -/
theorem geojson_features_have_coords (db : DB) (now : ℤ) :
    (geojson db now).features.all (fun f => f.lat.isSome && f.lon.isSome) = true := by
  rw [geojson]
  simp only [List.all_append, Bool.and_eq_true]
  constructor
  · apply List.all_eq_true.mpr
    intro f hf
    obtain ⟨r, _, rfl⟩ := List.mem_map.mp hf
    rfl
  · apply List.all_eq_true.mpr
    intro f hf
    obtain ⟨r, _, rfl⟩ := List.mem_map.mp hf
    rfl

lemma filter_length_split (p : LiveRow → Bool) (l : List LiveRow) :
    (l.filter p).length + (l.filter (fun r => !(p r))).length = l.length := by
  induction l with
  | nil => rfl
  | cons a tl ih =>
      cases h : p a <;> simp only [List.filter_cons, h] <;> simp <;> omega

/-- C4: `purge_expired_live(now)` keeps exactly the rows with
`live_until ≥ now` (unchanged and in their original order), returns the
number of rows with `live_until < now` (removed + kept = total), leaves the
events table untouched, and an immediate second call removes 0 rows and
changes nothing. -/
theorem purge_expired_exact (db : DB) (now : ℤ) :
    (purge_expired_live db now).2.live = db.live.filter (fun r => now ≤ r.live_until)
    ∧ (purge_expired_live db now).1 = (db.live.filter (fun r => r.live_until < now)).length
    ∧ (purge_expired_live db now).1 + (purge_expired_live db now).2.live.length = db.live.length
    ∧ (purge_expired_live db now).2.events = db.events
    ∧ purge_expired_live (purge_expired_live db now).2 now = (0, (purge_expired_live db now).2) := by
  have hSlive : (purge_expired_live db now).2.live
      = db.live.filter (fun r => now ≤ r.live_until) := by
    simp only [purge_expired_live]
    apply List.filter_congr
    intro x _
    by_cases h : x.live_until < now
    · simp [h, not_le.mpr h]
    · simp [h, not_lt.mp h]
  refine ⟨hSlive, rfl, ?_, rfl, ?_⟩
  · simp only [purge_expired_live]
    exact filter_length_split (fun r => r.live_until < now) db.live
  · have hfil0 : ((purge_expired_live db now).2.live).filter
        (fun r => r.live_until < now) = [] := by
      rw [hSlive, List.filter_filter]
      apply List.filter_eq_nil_iff.mpr
      intro a _
      simp only [Bool.and_eq_true, decide_eq_true_eq, not_and]
      intro h1 h2
      omega
    have hfil1 : ((purge_expired_live db now).2.live).filter
        (fun r => !(r.live_until < now)) = (purge_expired_live db now).2.live := by
      conv_lhs => rw [hSlive]
      rw [List.filter_filter, hSlive]
      apply List.filter_congr
      intro x _
      by_cases h : now ≤ x.live_until
      · simp [h, not_lt.mpr h]
      · simp [h]
    have hstep : purge_expired_live (purge_expired_live db now).2 now
        = (((purge_expired_live db now).2.live.filter (fun r => r.live_until < now)).length,
           { (purge_expired_live db now).2 with
             live := (purge_expired_live db now).2.live.filter
               (fun r => !(r.live_until < now)) }) := rfl
    rw [hstep, hfil0, hfil1]
    rfl

/-- C6 counterexample: `list_events` applies no row cap — on a table of 5001
events it returns all 5001 rows, exceeding the claimed 5000-row bound. -/
theorem list_events_cap_cex : ¬ ((list_events bigDB).length ≤ 5000) := by
  have h : (list_events bigDB).length = 5001 := by
    simp [list_events, bigDB]
  omega

/-- C6 amended: `list_events` returns all and only the stored events
(deletion is physical, so every stored event is non-deleted), ordered
most-recent-first by `ts`; no row cap is applied — the output length always
equals the full table size. -/
theorem list_events_all_sorted (db : DB) :
    (list_events db).Perm db.events
    ∧ (list_events db).Pairwise (fun a b => b.ts ≤ a.ts)
    ∧ (list_events db).length = db.events.length := by
  refine ⟨List.mergeSort_perm db.events _, ?_, by simp [list_events]⟩
  have htrans : ∀ a b c : EventRow,
      (fun x y : EventRow => decide (y.ts ≤ x.ts)) a b = true →
      (fun x y : EventRow => decide (y.ts ≤ x.ts)) b c = true →
      (fun x y : EventRow => decide (y.ts ≤ x.ts)) a c = true := by
    intro a b c hab hbc
    simp only [decide_eq_true_eq] at *
    omega
  have htotal : ∀ a b : EventRow,
      ((fun x y : EventRow => decide (y.ts ≤ x.ts)) a b
        || (fun x y : EventRow => decide (y.ts ≤ x.ts)) b a) = true := by
    intro a b
    simp only [Bool.or_eq_true, decide_eq_true_eq]
    omega
  have h := List.sorted_mergeSort htrans htotal db.events
  exact h.imp (fun hab => by simpa using hab)

/-- C3: starting or refreshing a live share twice for the same key leaves
exactly one row for that key, carrying the second call's contact, position
and expiry; a subsequent `update_live_position` mutates that single row's
coordinates in place; and `list_live` at any time within the expiry returns
that single row for the key — never a duplicate. -/
theorem live_upsert_no_duplicate (db : DB) (k : ℤ) (c1 c2 : Option String)
    (la1 lo1 la2 lo2 la3 lo3 : ℚ) (lu1 lu2 n1 n2 n3 nw : ℤ)
    (hwf : (db.live.map (fun r => r.user_id)).Nodup) (hnw : nw ≤ lu2) :
    (upsert_live_start (upsert_live_start db k c1 la1 lo1 lu1 n1) k c2 la2 lo2 lu2 n2).live.filter
        (fun r => r.user_id == k) = [⟨k, c2, la2, lo2, lu2, n2⟩]
    ∧ (update_live_position
          (upsert_live_start (upsert_live_start db k c1 la1 lo1 lu1 n1) k c2 la2 lo2 lu2 n2)
          k la3 lo3 n3).live.filter (fun r => r.user_id == k)
        = [⟨k, c2, la3, lo3, lu2, n3⟩]
    ∧ (list_live (update_live_position
          (upsert_live_start (upsert_live_start db k c1 la1 lo1 lu1 n1) k c2 la2 lo2 lu2 n2)
          k la3 lo3 n3) nw).filter (fun r => r.user_id == k)
        = [⟨k, c2, la3, lo3, lu2, n3⟩] := by
  have hnd1 : ((upsertRows db.live k ⟨k, c1, la1, lo1, lu1, n1⟩).map (fun r => r.user_id)).Nodup :=
    upsertRows_nodup _ _ _ rfl hwf
  have h2 : (upsertRows (upsertRows db.live k ⟨k, c1, la1, lo1, lu1, n1⟩) k
      ⟨k, c2, la2, lo2, lu2, n2⟩).filter (fun r => r.user_id == k)
      = [⟨k, c2, la2, lo2, lu2, n2⟩] :=
    filter_upsertRows _ _ _ rfl hnd1
  have h3 := filter_update_key (upsertRows (upsertRows db.live k ⟨k, c1, la1, lo1, lu1, n1⟩) k
      ⟨k, c2, la2, lo2, lu2, n2⟩) k la3 lo3 n3 _ h2
  refine ⟨h2, h3, ?_⟩
  have hcomm : (list_live (update_live_position
        (upsert_live_start (upsert_live_start db k c1 la1 lo1 lu1 n1) k c2 la2 lo2 lu2 n2)
        k la3 lo3 n3) nw).filter (fun r => r.user_id == k)
      = ((update_live_position
            (upsert_live_start (upsert_live_start db k c1 la1 lo1 lu1 n1) k c2 la2 lo2 lu2 n2)
            k la3 lo3 n3).live.filter (fun r => r.user_id == k)).filter
          (fun r => nw ≤ r.live_until) := by
    simp only [list_live, List.filter_filter]
    apply List.filter_congr
    intro x _
    exact Bool.and_comm _ _
  rw [hcomm]
  have hupd : (update_live_position
      (upsert_live_start (upsert_live_start db k c1 la1 lo1 lu1 n1) k c2 la2 lo2 lu2 n2)
      k la3 lo3 n3).live.filter (fun r => r.user_id == k)
      = [⟨k, c2, la3, lo3, lu2, n3⟩] := h3
  rw [hupd]
  simp [hnw]

/-- C3 witness: the spec scenario — key 42 started twice at (1, 2) with
expiry 1600, position updated to (1.5, 2.5) at time 1100; the single active
row for key 42 carries the updated coordinates. -/
theorem live_upsert_no_duplicate_witness :
    (upsert_live_start (upsert_live_start emptyDB 42 none 1 2 1600 1000)
        42 none 1 2 1600 1000).live.filter (fun r => r.user_id == 42)
      = [⟨42, none, 1, 2, 1600, 1000⟩]
    ∧ (update_live_position (upsert_live_start (upsert_live_start emptyDB 42 none 1 2 1600 1000)
          42 none 1 2 1600 1000) 42 (3/2) (5/2) 1100).live.filter (fun r => r.user_id == 42)
      = [⟨42, none, 3/2, 5/2, 1600, 1100⟩]
    ∧ (list_live (update_live_position (upsert_live_start
          (upsert_live_start emptyDB 42 none 1 2 1600 1000)
          42 none 1 2 1600 1000) 42 (3/2) (5/2) 1100) 1100).filter (fun r => r.user_id == 42)
      = [⟨42, none, 3/2, 5/2, 1600, 1100⟩] :=
  live_upsert_no_duplicate emptyDB 42 none none 1 2 1 2 (3/2) (5/2) 1600 1600 1000 1000 1100 1100
    (by decide) (by decide)

set_option maxRecDepth 100000 in
set_option maxHeartbeats 2000000 in
/-- C9: the signature guard — `sign_uid` is a deterministic, fixed-size
(64 hex characters) HMAC-SHA256 of the owner id under the server secret;
`check_sig(u, sign_uid(u))` accepts for every secret and owner, and at the
spec's scenario (default secret, owners 99 and 100) a different owner's
token is rejected. -/
theorem signature_guard_correct :
    (∀ secret : List Nat, ∀ uid : Nat, check_sig secret uid (sign_uid secret uid) = true)
    ∧ (∀ secret : List Nat, ∀ uid : Nat, (sign_uid secret uid).length = 64)
    ∧ check_sig default_secret 99 (sign_uid default_secret 99) = true
    ∧ check_sig default_secret 99 (sign_uid default_secret 100) = false := by
  refine ⟨?_, ?_, ?_, ?_⟩
  · intro secret uid
    simp [check_sig, compare_digest]
  · intro secret uid
    exact sign_uid_length secret uid
  · simp [check_sig, compare_digest]
  · decide
